import Mathlib

/-!
Shallow embedding of the `ConversationMemory` class of `src/agent.py`
(hkbusinesschatbot). Turns are role/content pairs; History is the
`full_history` list, SummaryLog is the `summaries` list. Python slicing with
negative indices is modelled explicitly: `l[-k:]` keeps the last `k` elements
when `k > 0` but the whole list when `k = 0`, and `l[a:-k]` stops at index
`len(l) - k` (clamped at 0) when `k > 0` but at index `0` when `k = 0`.
The external summarizer (`client.messages.create` + `.content[0].text`) is
modelled as a function `String -> Except String String`; an `Except.error`
models any exception raised by the call. File reading in `load` is modelled
by a `ReadOutcome` enumerating how `open` + `pickle.load` can turn out.
-/

/-- One message of the conversation: `{"role": role, "content": content}`. -/
structure Turn where
  role : String
  content : String
deriving Repr, DecidableEq

/-- The state of the `ConversationMemory` class: `full_history`, `summaries`
and the `max_recent_messages` configuration. -/
structure ConversationMemory where
  full_history : List Turn
  summaries : List String
  max_recent_messages : Nat
deriving Repr, DecidableEq

/-- Python slice `l[-k:]`: the last `k` elements when `k > 0`; the whole
list when `k = 0` (since `-0 == 0`). -/
def pySliceLast (k : Nat) (l : List α) : List α :=
  if k = 0 then l else l.drop (l.length - k)

/-- Python slice `l[a:-k]`: elements from index `a` up to (excluding) index
`len(l) - k` (clamped at 0) when `k > 0`; empty when `k = 0` and `a > 0`
(since the stop index `-0` is `0`). -/
def pySliceMid (l : List α) (a k : Nat) : List α :=
  (l.take (if k = 0 then 0 else l.length - k)).drop a

/-- `add_message(self, role, content)`: appends one turn to `full_history`. -/
def add_message (m : ConversationMemory) (role content : String) :
    ConversationMemory :=
  { m with full_history := m.full_history ++ [⟨role, content⟩] }

/-- `clear(self)`: resets `full_history` and `summaries` to empty. -/
def clear (m : ConversationMemory) : ConversationMemory :=
  { m with full_history := [], summaries := [] }

/-- `get_context_for_api(self)`: returns `full_history` when it is short,
otherwise the last `max_recent_messages` turns, preceded by a synthetic
two-turn summary pair when `summaries` is non-empty. Read-only: the Python
method does not mutate `full_history` or `summaries`. -/
def get_context_for_api (m : ConversationMemory) : List Turn :=
  if m.full_history.length ≤ m.max_recent_messages then
    m.full_history
  else
    let recent := pySliceLast m.max_recent_messages m.full_history
    let context : List Turn :=
      if m.summaries.isEmpty then []
      else
        [⟨"user", "Previous conversation summary:\n" ++ m.summaries.getLastD ""⟩,
         ⟨"assistant", "I remember our previous conversation."⟩]
    context ++ recent

/-- One line of the text block sent to the summarizer:
`f"{role.upper()}: {content[:200]}..."` when the content exceeds 200
characters, `f"{role.upper()}: {content}"` otherwise. -/
def renderLine (msg : Turn) : String :=
  if msg.content.length > 200 then
    msg.role.toUpper ++ ": " ++ (msg.content.take 200) ++ "..."
  else
    msg.role.toUpper ++ ": " ++ msg.content

/-- The `"\n".join(...)` over the rendered lines of the compression slice. -/
def renderConv (msgs : List Turn) : String :=
  String.intercalate "\n" (msgs.map renderLine)

/-- `summarize_old_conversations(self, csv_data, system_prompt)`. The
summarizer argument models the external call; `Except.error` models an
exception caught by the `except Exception` handler. The returned Bool
records whether the external call was made. The `csv_data` and
`system_prompt` parameters are unused by the Python method body. -/
def summarize_old_conversations (m : ConversationMemory)
    (summarizer : String → Except String String) :
    ConversationMemory × Bool :=
  if m.full_history.length ≤ m.max_recent_messages + 2 then
    (m, false)
  else
    let to_summarize := pySliceMid m.full_history 2 m.max_recent_messages
    if to_summarize.length < 2 then
      (m, false)
    else
      match summarizer (renderConv to_summarize) with
      | Except.ok summary =>
          ({ m with
              summaries := m.summaries ++ [summary],
              full_history :=
                m.full_history.take 2 ++
                  pySliceLast m.max_recent_messages m.full_history },
           true)
      | Except.error _ => (m, true)

/-- The dict pickled by `save` and unpickled by `load`; each key may be
absent (accessing an absent key raises `KeyError`). -/
structure PickleDict where
  full_history : Option (List Turn)
  summaries : Option (List String)
deriving Repr, DecidableEq

/-- `save(self, filepath)`: serializes both fields under their keys. -/
def save (m : ConversationMemory) : PickleDict :=
  ⟨some m.full_history, some m.summaries⟩

/-- How `open(filepath, "rb")` followed by `pickle.load(f)` can turn out:
the file is missing (`FileNotFoundError`), the file exists but cannot be
read (for example `PermissionError`), the bytes do not unpickle
(`pickle.UnpicklingError`), or a dict is obtained. -/
inductive ReadOutcome where
  | fileNotFound
  | permissionDenied
  | corruptBlob
  | payload (d : PickleDict)
deriving Repr, DecidableEq

/-- The exceptions that can escape `load`: an uncaught OS error from `open`,
an uncaught unpickling error, or an uncaught `KeyError` from a missing key. -/
inductive LoadErr where
  | ioError
  | unpicklingError
  | keyError
deriving Repr, DecidableEq

/-- `load(self, filepath)`. Only `FileNotFoundError` is caught (returning
`False`); every other exception propagates. The error case carries the state
of the object at the moment the exception is raised, because the two field
assignments are sequential: `self.full_history = data["full_history"]` runs
before `data["summaries"]` is evaluated. -/
def load (m : ConversationMemory) (src : ReadOutcome) :
    Except (LoadErr × ConversationMemory) (ConversationMemory × Bool) :=
  match src with
  | ReadOutcome.fileNotFound => Except.ok (m, false)
  | ReadOutcome.permissionDenied => Except.error (LoadErr.ioError, m)
  | ReadOutcome.corruptBlob => Except.error (LoadErr.unpicklingError, m)
  | ReadOutcome.payload d =>
      match d.full_history with
      | none => Except.error (LoadErr.keyError, m)
      | some fh =>
          match d.summaries with
          | none => Except.error (LoadErr.keyError, { m with full_history := fh })
          | some s =>
              Except.ok ({ m with full_history := fh, summaries := s }, true)

/-! Helper lemmas about the Python slices. -/

/-- The slice `l[-k:]` has exactly `k` elements when `1 ≤ k ≤ len(l)`. -/
theorem pySliceLast_length_eq {α : Type} (k : Nat) (l : List α)
    (hk : 1 ≤ k) (hl : k ≤ l.length) : (pySliceLast k l).length = k := by
  unfold pySliceLast
  have hk0 : k ≠ 0 := Nat.one_le_iff_ne_zero.mp hk
  simp [hk0, Nat.sub_sub_self hl]

/-- The slice `l[-k:]` equals dropping all but the last `k` elements when
`k ≥ 1`. -/
theorem pySliceLast_eq_drop {α : Type} (k : Nat) (l : List α)
    (hk : 1 ≤ k) : pySliceLast k l = l.drop (l.length - k) := by
  unfold pySliceLast
  simp [Nat.one_le_iff_ne_zero.mp hk]

/-- Length of the compression slice `l[2:-k]` for `k ≥ 1`. -/
theorem pySliceMid_length {α : Type} (l : List α) (k : Nat) (hk : k ≠ 0) :
    (pySliceMid l 2 k).length = l.length - k - 2 := by
  unfold pySliceMid
  simp [hk, Nat.sub_sub]

/-- A compression slice with at least 2 elements forces `k ≥ 1`. -/
theorem pySliceMid_two_le_imp {α : Type} (l : List α) (k : Nat)
    (h : 2 ≤ (pySliceMid l 2 k).length) : 1 ≤ k := by
  by_contra hk
  have hk0 : k = 0 := by omega
  simp [pySliceMid, hk0] at h

/-! Claims about the Context Assembler. -/

/-- C1: for every state with `max_recent_messages ≥ 1`, the context returned
by `get_context_for_api` has at most `max_recent_messages + 2` turns,
independent of the length of `full_history`. -/
theorem get_context_bounded (m : ConversationMemory)
    (hk : 1 ≤ m.max_recent_messages) :
    (get_context_for_api m).length ≤ m.max_recent_messages + 2 := by
  by_cases hle : m.full_history.length ≤ m.max_recent_messages
  · simp only [get_context_for_api, if_pos hle]
    omega
  · have hlt : m.max_recent_messages < m.full_history.length := Nat.lt_of_not_le hle
    have hrec := pySliceLast_length_eq m.max_recent_messages m.full_history hk
      (Nat.le_of_lt hlt)
    simp only [get_context_for_api, if_neg hle, List.length_append, hrec]
    by_cases hs : m.summaries.isEmpty
    · simp [hs]
    · simp [hs]
      omega

/-- Example state for the witness of `get_context_bounded`. -/
def exMemory1 : ConversationMemory :=
  ⟨[⟨"user", "a"⟩, ⟨"assistant", "b"⟩, ⟨"user", "c"⟩], ["old summary"], 1⟩

/-- Witness for C1 at a concrete state with 3 turns, one summary and
`max_recent_messages = 1`. -/
theorem get_context_bounded_witness :
    (get_context_for_api exMemory1).length ≤ exMemory1.max_recent_messages + 2 :=
  get_context_bounded exMemory1 (by decide)

/-- C4: when `len(full_history) ≤ max_recent_messages`, `get_context_for_api`
returns the entire `full_history` verbatim (the Python method is read-only,
so the state is unchanged by construction). -/
theorem get_context_short (m : ConversationMemory)
    (h : m.full_history.length ≤ m.max_recent_messages) :
    get_context_for_api m = m.full_history := by
  simp [get_context_for_api, h]

/-- Example state for the witness of `get_context_short`. -/
def exMemory4 : ConversationMemory :=
  ⟨[⟨"user", "hello"⟩, ⟨"assistant", "hi"⟩], ["s"], 4⟩

/-- Witness for C4 at a concrete 2-turn state with `max_recent_messages = 4`. -/
theorem get_context_short_witness :
    get_context_for_api exMemory4 = exMemory4.full_history :=
  get_context_short exMemory4 (by decide)

/-- C9: with a long history (more than `max_recent_messages` turns,
`max_recent_messages ≥ 1` per the data model) and no summaries yet,
`get_context_for_api` returns exactly the last `max_recent_messages` turns:
neither the anchor pair nor any other older turn appears. -/
theorem get_context_no_summary_recent_only (m : ConversationMemory)
    (hk : 1 ≤ m.max_recent_messages)
    (hl : m.max_recent_messages < m.full_history.length)
    (hs : m.summaries = []) :
    get_context_for_api m =
      m.full_history.drop (m.full_history.length - m.max_recent_messages) ∧
    (get_context_for_api m).length = m.max_recent_messages := by
  have hle : ¬ m.full_history.length ≤ m.max_recent_messages := Nat.not_le.mpr hl
  constructor
  · simp [get_context_for_api, hle, hs, pySliceLast_eq_drop _ _ hk]
  · simp [get_context_for_api, hle, hs,
      pySliceLast_length_eq m.max_recent_messages m.full_history hk (Nat.le_of_lt hl)]

/-- Example state for the witness of `get_context_no_summary_recent_only`. -/
def exMemory9 : ConversationMemory :=
  ⟨[⟨"user", "a"⟩, ⟨"assistant", "b"⟩, ⟨"user", "c"⟩, ⟨"assistant", "d"⟩], [], 2⟩

/-- Witness for C9 at a concrete 4-turn state with empty SummaryLog and
`max_recent_messages = 2`. -/
theorem get_context_no_summary_recent_only_witness :
    get_context_for_api exMemory9 =
      exMemory9.full_history.drop
        (exMemory9.full_history.length - exMemory9.max_recent_messages) ∧
    (get_context_for_api exMemory9).length = exMemory9.max_recent_messages :=
  get_context_no_summary_recent_only exMemory9 (by decide) (by decide) rfl

/-! Claims about the Compressor. -/

/-- C2: on a state long enough to compress (more than
`max_recent_messages + 2` turns, compression slice of at least 2 turns), a
successful summarizer call leaves `full_history` equal to the first 2 old
turns followed by the last `max_recent_messages` old turns — hence of length
`2 + max_recent_messages` — and appends exactly the returned summary to
`summaries`. -/
theorem summarize_success_shape (m : ConversationMemory)
    (f : String → Except String String) (s : String)
    (h1 : m.max_recent_messages + 2 < m.full_history.length)
    (h2 : 2 ≤ (pySliceMid m.full_history 2 m.max_recent_messages).length)
    (h3 : f (renderConv (pySliceMid m.full_history 2 m.max_recent_messages)) =
      Except.ok s) :
    (summarize_old_conversations m f).1.full_history =
      m.full_history.take 2 ++
        m.full_history.drop (m.full_history.length - m.max_recent_messages) ∧
    (summarize_old_conversations m f).1.full_history.length =
      2 + m.max_recent_messages ∧
    (summarize_old_conversations m f).1.summaries = m.summaries ++ [s] := by
  have hk : 1 ≤ m.max_recent_messages :=
    pySliceMid_two_le_imp m.full_history m.max_recent_messages h2
  have hguard : ¬ m.full_history.length ≤ m.max_recent_messages + 2 :=
    Nat.not_le.mpr h1
  have hslice : ¬ (pySliceMid m.full_history 2 m.max_recent_messages).length < 2 :=
    Nat.not_lt.mpr h2
  have hres : summarize_old_conversations m f =
      ({ m with
          summaries := m.summaries ++ [s],
          full_history :=
            m.full_history.take 2 ++
              pySliceLast m.max_recent_messages m.full_history }, true) := by
    simp only [summarize_old_conversations, if_neg hguard, if_neg hslice, h3]
  refine ⟨?_, ?_, ?_⟩
  · rw [hres]
    simp [pySliceLast_eq_drop _ _ hk]
  · rw [hres]
    have h2' : (m.full_history.take 2).length = 2 := by
      simp [List.length_take]
      omega
    simp only [List.length_append, h2',
      pySliceLast_length_eq m.max_recent_messages m.full_history hk (by omega)]
  · rw [hres]

/-- Example state for the witness of `summarize_success_shape`: five turns,
`max_recent_messages = 1`, so the compression slice is turns 2 and 3. -/
def exMemory2 : ConversationMemory :=
  ⟨[⟨"user", "p"⟩, ⟨"assistant", "q"⟩, ⟨"user", "r"⟩, ⟨"assistant", "s"⟩,
    ⟨"user", "t"⟩], [], 1⟩

/-- Witness for C2 at a concrete 5-turn state with an always-succeeding
summarizer. -/
theorem summarize_success_shape_witness :
    (summarize_old_conversations exMemory2 (fun _ => Except.ok "SUM")).1.full_history =
      exMemory2.full_history.take 2 ++
        exMemory2.full_history.drop
          (exMemory2.full_history.length - exMemory2.max_recent_messages) ∧
    (summarize_old_conversations exMemory2 (fun _ => Except.ok "SUM")).1.full_history.length =
      2 + exMemory2.max_recent_messages ∧
    (summarize_old_conversations exMemory2 (fun _ => Except.ok "SUM")).1.summaries =
      exMemory2.summaries ++ ["SUM"] :=
  summarize_success_shape exMemory2 (fun _ => Except.ok "SUM") "SUM"
    (by decide) (by decide) rfl

/-- C3: if the external summarizer call raises (modelled by `Except.error`),
`summarize_old_conversations` returns normally with `full_history` and
`summaries` exactly as before the call; the `except Exception` handler in the
source swallows the exception. -/
theorem summarize_failure_noop (m : ConversationMemory)
    (f : String → Except String String) (e : String)
    (h : f (renderConv (pySliceMid m.full_history 2 m.max_recent_messages)) =
      Except.error e) :
    (summarize_old_conversations m f).1 = m := by
  unfold summarize_old_conversations
  by_cases hguard : m.full_history.length ≤ m.max_recent_messages + 2
  · simp [hguard]
  · by_cases hslice :
      (pySliceMid m.full_history 2 m.max_recent_messages).length < 2
    · simp [hguard, hslice]
    · simp [hguard, hslice, h]

/-- Example state for the witness of `summarize_failure_noop`: five turns,
`max_recent_messages = 1`, summarizer always raising. -/
def exMemory3 : ConversationMemory :=
  ⟨[⟨"user", "p"⟩, ⟨"assistant", "q"⟩, ⟨"user", "r"⟩, ⟨"assistant", "s"⟩,
    ⟨"user", "t"⟩], ["earlier"], 1⟩

/-- Witness for C3 at a concrete state with an always-failing summarizer. -/
theorem summarize_failure_noop_witness :
    (summarize_old_conversations exMemory3
      (fun _ => Except.error "APIError")).1 = exMemory3 :=
  summarize_failure_noop exMemory3 (fun _ => Except.error "APIError")
    "APIError" rfl

/-- C5: when the history is too short (`len ≤ max_recent_messages + 2`) or
the compression slice has fewer than 2 turns, `summarize_old_conversations`
changes nothing and never calls the summarizer (the Bool flag is `false`). -/
theorem summarize_guard_noop (m : ConversationMemory)
    (f : String → Except String String)
    (h : m.full_history.length ≤ m.max_recent_messages + 2 ∨
      (pySliceMid m.full_history 2 m.max_recent_messages).length < 2) :
    summarize_old_conversations m f = (m, false) := by
  unfold summarize_old_conversations
  rcases h with h | h
  · simp [h]
  · by_cases hguard : m.full_history.length ≤ m.max_recent_messages + 2
    · simp [hguard]
    · simp [hguard, h]

/-- Example state for the witness of `summarize_guard_noop`: seven turns with
`max_recent_messages = 4`, so the guard `len ≤ max + 2` fails but the slice
`full_history[2:-4]` has a single turn. -/
def exMemory5 : ConversationMemory :=
  ⟨[⟨"user", "a"⟩, ⟨"assistant", "b"⟩, ⟨"user", "c"⟩, ⟨"assistant", "d"⟩,
    ⟨"user", "e"⟩, ⟨"assistant", "f"⟩, ⟨"user", "g"⟩], [], 4⟩

/-- Witness for C5 at a concrete 7-turn state whose compression slice has
only 1 turn; the summarizer is never invoked even though it would succeed. -/
theorem summarize_guard_noop_witness :
    summarize_old_conversations exMemory5 (fun _ => Except.ok "SUM") =
      (exMemory5, false) :=
  summarize_guard_noop exMemory5 (fun _ => Except.ok "SUM")
    (Or.inr (by decide))

/-! Claims about persistence. -/

/-- C6 counterexample: a source that is present but unreadable (an OS error
other than `FileNotFoundError`, such as `PermissionError`) does not make
`load` return `false`; the exception propagates, because the source only
catches `FileNotFoundError`. -/
theorem load_unreadable_raises :
    load (⟨[], [], 4⟩ : ConversationMemory) ReadOutcome.permissionDenied =
      Except.error (LoadErr.ioError, (⟨[], [], 4⟩ : ConversationMemory)) ∧
    load (⟨[], [], 4⟩ : ConversationMemory) ReadOutcome.permissionDenied ≠
      Except.ok ((⟨[], [], 4⟩ : ConversationMemory), false) :=
  ⟨rfl, by simp [load]⟩

/-- C6 amended: `load` returns `false` with the state unchanged exactly when
the source does not exist (`FileNotFoundError`); a source that is present but
unreadable propagates its error with the state unchanged, just as a present
but structurally corrupt source does. -/
theorem load_error_behavior (m : ConversationMemory) :
    load m ReadOutcome.fileNotFound = Except.ok (m, false) ∧
    load m ReadOutcome.permissionDenied = Except.error (LoadErr.ioError, m) ∧
    load m ReadOutcome.corruptBlob =
      Except.error (LoadErr.unpicklingError, m) ∧
    load m (ReadOutcome.payload ⟨none, none⟩) =
      Except.error (LoadErr.keyError, m) :=
  ⟨rfl, rfl, rfl, rfl⟩

/-- C7: saving a (non-empty) state and loading the resulting blob into any
memory object succeeds, returns `true`, and restores `full_history` and
`summaries` to the saved values. -/
theorem save_load_roundtrip (x m : ConversationMemory)
    (_h : x.full_history ≠ []) :
    load m (ReadOutcome.payload (save x)) =
      Except.ok
        ({ m with full_history := x.full_history, summaries := x.summaries },
         true) :=
  rfl

/-- Example saved state for the witness of `save_load_roundtrip`. -/
def exMemory7 : ConversationMemory :=
  ⟨[⟨"user", "hello"⟩, ⟨"assistant", "hi"⟩], ["a summary"], 4⟩

/-- Example receiving state for the witness of `save_load_roundtrip`. -/
def exMemory7b : ConversationMemory := ⟨[⟨"user", "other"⟩], [], 2⟩

/-- Witness for C7: round trip at a concrete non-empty state. -/
theorem save_load_roundtrip_witness :
    load exMemory7b (ReadOutcome.payload (save exMemory7)) =
      Except.ok
        ({ exMemory7b with
            full_history := exMemory7.full_history,
            summaries := exMemory7.summaries },
         true) :=
  save_load_roundtrip exMemory7 exMemory7b (by decide)

/-- C8 counterexample: `load` is a mutation of `full_history` that is neither
`compress` nor `clear`, yet it can shrink the history: loading a payload
whose saved history is empty into a 1-turn state leaves 0 turns, not 2. -/
theorem load_not_append_counterexample :
    load (⟨[⟨"user", "hi"⟩], [], 4⟩ : ConversationMemory)
        (ReadOutcome.payload ⟨some [], some []⟩) =
      Except.ok ((⟨[], [], 4⟩ : ConversationMemory), true) ∧
    (⟨[], [], 4⟩ : ConversationMemory).full_history.length ≠
      (⟨[⟨"user", "hi"⟩], [], 4⟩ : ConversationMemory).full_history.length + 1 :=
  ⟨rfl, by decide⟩

/-- C8 amended: every mutation of `full_history` other than
`summarize_old_conversations` (compress), `clear` and `load` — that is,
`add_message`, the only remaining mutator — appends exactly one turn:
the length grows by exactly 1, every prior element is preserved in place,
and `summaries` is untouched. -/
theorem add_message_appends (m : ConversationMemory) (role content : String) :
    (add_message m role content).full_history =
      m.full_history ++ [⟨role, content⟩] ∧
    (add_message m role content).full_history.length =
      m.full_history.length + 1 ∧
    (add_message m role content).full_history.take m.full_history.length =
      m.full_history ∧
    (add_message m role content).summaries = m.summaries := by
  refine ⟨rfl, by simp [add_message], ?_, rfl⟩
  simp [add_message, List.take_left]

/-- C10: loading a dict that has the key `full_history` but lacks the key
`summaries` raises (`KeyError`) after `full_history` has already been
replaced with the loaded value, while `summaries` keeps its prior value:
the state after the failed restore is partially updated. -/
theorem load_missing_summaries_partial (m : ConversationMemory)
    (fh : List Turn) :
    load m (ReadOutcome.payload ⟨some fh, none⟩) =
      Except.error (LoadErr.keyError, { m with full_history := fh }) ∧
    ({ m with full_history := fh } : ConversationMemory).full_history = fh ∧
    ({ m with full_history := fh } : ConversationMemory).summaries =
      m.summaries :=
  ⟨rfl, rfl, rfl⟩
